import Mathlib

/-!
Verification of the botbuilder-js conversational engine against its design
specification.  The development shallowly embeds the relevant JavaScript /
TypeScript sources: the `botbuilder-prompts` choice and confirm prompt
`recognize` functions, the `botbuilder-core` `MiddlewareSet`, and — for the
parts of the repository whose implementation files are not available (the
dialog stack machine, the prompt sub-protocol driver, and the user-state
persistence binding) — models built from the specification's own words.
-/

namespace BotBuilder

/-! ## JavaScript value helpers

JavaScript `a || b` returns `b` when `a` is falsy.  For string-typed
positions the falsy values are `undefined` (here `Option.none`) and the
empty string. -/

/-- JavaScript `a || b` for a possibly-absent string `a` and a string `b`:
yields `b` when `a` is `undefined` or the empty string. -/
def jsOr : Option String → String → String
  | none, b => b
  | some s, b => if s = "" then b else s

/-! ## Turn context (the slice the prompts read)

`context.request` may be absent; a request carries optional `text` and
`locale` fields. -/

/-- The inbound request fields read by the prompt recognizers. -/
structure Request where
  text : Option String
  locale : Option String
deriving Repr, DecidableEq

/-- The turn context as seen by the prompt recognizers: `request` may be
absent. -/
structure Context where
  request : Option Request
deriving Repr, DecidableEq

/-- Embeds `const request = context.request || {};` — an absent request
becomes the empty object (both fields absent). -/
def requestOf (context : Context) : Request :=
  context.request.getD { text := none, locale := none }

/-- Embeds `const utterance = request.text || '';`. -/
def utteranceOf (context : Context) : String :=
  jsOr (requestOf context).text ""

/-! ## choicePrompt.js — `recognize`

```js
recognize: function recognize(context, choices) {
    const request = context.request || {};
    const utterance = request.text || '';
    const options = Object.assign({}, this.recognizerOptions);
    options.locale = request.locale || this.recognizerOptions.locale || defaultLocale || 'en-us';
    const results = botbuilder_choices_1.recognizeChoices(utterance, choices, options);
    const value = results.length > 0 ? results[0].resolution : undefined;
    return Promise.resolve(validator ? validator(context, value, choices) : value);
}
```

`recognizeChoices` is an external collaborator (botbuilder-choices); it is a
parameter of the embedding.  Its ranked results each carry a `resolution`. -/

/-- Options handed to the external `recognizeChoices` collaborator; the
prompt copies its configured `recognizerOptions` and overwrites `locale`. -/
structure FindChoicesOptions where
  locale : Option String
deriving Repr, DecidableEq

/-- One entry of the ranked result list returned by `recognizeChoices`:
a `ModelResult<FoundChoice>` whose `resolution` is the found choice. -/
structure ChoiceModelResult (ρ : Type) where
  resolution : ρ

/-- Embeds the choice locale chain
`request.locale || this.recognizerOptions.locale || defaultLocale || 'en-us'`. -/
def choiceLocaleOf (context : Context) (recognizerOptionsLocale defaultLocale : Option String) :
    String :=
  jsOr (requestOf context).locale (jsOr recognizerOptionsLocale (jsOr defaultLocale "en-us"))

/-- Embeds `const options = Object.assign({}, this.recognizerOptions);
options.locale = …;` — the configured options with `locale` overwritten by
the fallback chain. -/
def choiceOptionsOf (recognizerOptions : FindChoicesOptions) (context : Context)
    (defaultLocale : Option String) : FindChoicesOptions :=
  { recognizerOptions with
    locale := some (choiceLocaleOf context recognizerOptions.locale defaultLocale) }

/-- The `recognize` method of `createChoicePrompt(validator, defaultLocale)`.
`recognizeChoices` is the external collaborator, `recognizerOptions` the
prompt's configured options, `validator` the optional validator closed over
by the factory. -/
def choiceRecognize {χ ρ : Type}
    (recognizeChoices : String → List χ → FindChoicesOptions → List (ChoiceModelResult ρ))
    (validator : Option (Context → Option ρ → List χ → Option ρ))
    (defaultLocale : Option String)
    (recognizerOptions : FindChoicesOptions)
    (context : Context) (choices : List χ) : Option ρ :=
  let utterance := utteranceOf context
  let options := choiceOptionsOf recognizerOptions context defaultLocale
  let results := recognizeChoices utterance choices options
  let value : Option ρ :=
    match results with
    | [] => none
    | r :: _ => some r.resolution
  match validator with
  | some v => v context value choices
  | none => value

/-! ## confirmPrompt.js — `recognize`

```js
recognize: function recognize(context) {
    const request = context.request || {};
    const utterance = request.text || '';
    const locale = request.locale || defaultLocale || 'en-us';
    const results = Recognizers.recognizeBoolean(utterance, locale);
    const value = results.length > 0 && results[0].resolution ? results[0].resolution.value : undefined;
    return Promise.resolve(validator ? validator(context, value) : value);
}
```

`Recognizers.recognizeBoolean` is the external locale-specific yes/no
grammar; its results carry an optional `resolution` object with a boolean
`value`. -/

/-- The `resolution` object of a boolean recognizer result. -/
structure BoolResolution where
  value : Bool
deriving Repr, DecidableEq

/-- One entry of the list returned by `Recognizers.recognizeBoolean`; the
`resolution` field may itself be absent (falsy). -/
structure BoolModelResult where
  resolution : Option BoolResolution
deriving Repr, DecidableEq

/-- Embeds the confirm locale chain `request.locale || defaultLocale || 'en-us'`. -/
def confirmLocaleOf (context : Context) (defaultLocale : Option String) : String :=
  jsOr (requestOf context).locale (jsOr defaultLocale "en-us")

/-- The `recognize` method of `createConfirmPrompt(validator, defaultLocale)`;
`recognizeBoolean` is the external locale-specific yes/no grammar. -/
def confirmRecognize
    (recognizeBoolean : String → String → List BoolModelResult)
    (validator : Option (Context → Option Bool → Option Bool))
    (defaultLocale : Option String)
    (context : Context) : Option Bool :=
  let utterance := utteranceOf context
  let locale := confirmLocaleOf context defaultLocale
  let results := recognizeBoolean utterance locale
  let value : Option Bool :=
    match results with
    | [] => none
    | r :: _ =>
      match r.resolution with
      | none => none
      | some res => some res.value
  match validator with
  | some v => v context value
  | none => value

/-! ## middlewareSet.js — `MiddlewareSet`

```js
use(...middleware) {
    middleware.forEach((plugin) => {
        if (typeof plugin === 'function') {
            this.middleware.push(plugin);
        }
        else if (typeof plugin === 'object' && plugin.onProcessRequest) {
            this.middleware.push((context, next) => plugin.onProcessRequest(context, next));
        }
        else {
            throw new Error(`MiddlewareSet.use(): invalid plugin type being added.`);
        }
    });
    return this;
}
run(context, next) {
    const handlers = this.middleware.slice();
    function runNext(i) {
        try {
            if (i < handlers.length) {
                return Promise.resolve(handlers[i](context, () => runNext(i + 1)));
            }
            else {
                return Promise.resolve(next());
            }
        }
        catch (err) {
            return Promise.reject(err);
        }
    }
    return runNext(0);
}
```

A middleware handler receives the turn context and a continuation.  The
turn's observable effects are threaded as an explicit state `σ`: a handler
is a function taking the current state and the continuation `σ → σ` and
returning the final state. -/

/-- A registered middleware handler: current effect state and continuation
in, final effect state out. -/
def Middleware (σ : Type) : Type := σ → (σ → σ) → σ

/-- A value passed to `MiddlewareSet.use`: a bare handler function, an
object exposing `onProcessRequest`, or anything else (invalid). -/
inductive Plugin (σ : Type) where
  | func (f : Middleware σ)
  | obj (onProcessRequest : Middleware σ)
  | invalid

/-- The branch of `use` handling one plugin: a function is pushed as-is, an
object with `onProcessRequest` is pushed wrapped, anything else throws. -/
def pluginToHandler {σ : Type} : Plugin σ → Option (Middleware σ)
  | .func f => some f
  | .obj p => some (fun context next => p context next)
  | .invalid => none

/-- Embeds `MiddlewareSet.use(...middleware)`: iterates the plugins, pushing each
valid one onto the registered list; the first invalid plugin throws, leaving
the list as mutated so far (the invalid plugin itself adds nothing and later
plugins are not reached).  Returns the final registered list and the thrown
error message, if any. -/
def MiddlewareSet.use {σ : Type} :
    List (Plugin σ) → List (Middleware σ) → List (Middleware σ) × Option String
  | [], registered => (registered, none)
  | plugin :: rest, registered =>
    match pluginToHandler plugin with
    | some h => MiddlewareSet.use rest (registered ++ [h])
    | none => (registered, some "MiddlewareSet.use(): invalid plugin type being added.")

/-- Embeds `runNext(i)` of `MiddlewareSet.run`: invokes `handlers[i]` with a
continuation that runs the rest of the chain, and `next` once past the
end. -/
def runNext {σ : Type} (handlers : List (Middleware σ)) (next : σ → σ) (i : ℕ) (s : σ) : σ :=
  if h : i < handlers.length then
    (handlers.get ⟨i, h⟩) s (fun s1 => runNext handlers next (i + 1) s1)
  else
    next s
termination_by handlers.length - i

/-- Embeds `MiddlewareSet.run(context, next)`: executes the registered
handlers in series starting at index 0. -/
def MiddlewareSet.run {σ : Type} (handlers : List (Middleware σ)) (next : σ → σ) (s : σ) : σ :=
  runNext handlers next 0 s

/-- Instrumentation for the run-order property: over the state
`List (Option ℕ)`, the handler tagged `t` records `some t` and calls its
continuation exactly once, and the chain-final `next` records `none`. -/
def taggedHandler (t : ℕ) : Middleware (List (Option ℕ)) :=
  fun s next => next (s ++ [some t])

/-- The chain-final `next` used in the instrumented run: records `none`. -/
def taggedNext : List (Option ℕ) → List (Option ℕ) :=
  fun s => s ++ [none]

/-- The structural reading of `runNext`: running the chain from index `i`
is running the handlers remaining from `i` on, each receiving the rest of
the chain as its continuation, with `next` at the end. -/
def chainRun {σ : Type} : List (Middleware σ) → (σ → σ) → σ → σ
  | [], next, s => next s
  | h :: rest, next, s => h s (fun s1 => chainRun rest next s1)

/-- A falsy JavaScript string position: `undefined` or the empty string. -/
def jsFalsy (o : Option String) : Prop :=
  o = none ∨ o = some ""

/-! ## The dialog stack machine (spec §3, §4.1)

The implementation files of the dialog stack machine (the `DialogContext`
and `DialogSet` of botbuilder-dialogs) are not among the available sources —
only declaration files and callers are.  The machine below is therefore
modelled from the specification's own words.  Dialog results are an
arbitrary value type `α`; each operation returns the new stack together
with a trace of the handler invocations it performed. -/

/-- Modelled from the spec: the per-frame `state` bag ("opaque key/value bag
private to that dialog invocation; for a waterfall, `state` additionally
holds the current step index").  The fresh `{}` bag is `stepIndex = 0`. -/
structure DialogState where
  stepIndex : ℕ
deriving Repr, DecidableEq

/-- Modelled from the spec: a stack frame,
`DialogInstance = { dialogId, state }`. -/
structure DialogInstance where
  dialogId : String
  state : DialogState
deriving Repr, DecidableEq

/-- Modelled from the spec: a dialog definition is "polymorphic over
{WaterfallSteps, Prompt, Control}"; a waterfall is an ordered fixed
sequence of step handlers, each invoked with the incoming result and
returning its own value.  Prompts own the sub-protocol of §4.2 (modelled
separately); here their start handler is render-and-suspend. -/
inductive DialogDefinition (α : Type) where
  | waterfall (steps : List (α → α))
  | prompt

/-- Modelled from the spec: the Dialog Definition Registry, "an immutable
mapping from dialog identifier to a dialog definition", looked up by
identifier only. -/
def Registry (α : Type) : Type := String → Option (DialogDefinition α)

/-- The handler invocations a stack operation performs, in order. -/
inductive Event (α : Type) where
  | stepInvoked (dialogId : String) (stepIndex : ℕ) (input : α)
  | promptRendered (dialogId : String)
  | completed (result : α)
deriving Repr, DecidableEq

/-- Modelled from the spec: the errors of §7 raised by the stack machine. -/
inductive DialogError where
  | UnknownDialogId (id : String)
  | StackUnderflow
deriving Repr, DecidableEq

/-- Modelled from the spec: starting a freshly pushed instance for a
definition ("for a waterfall, start = execute step 0; for a prompt,
start = render").  Executing step 0 records the invocation and leaves the
persisted step index at 1; a waterfall with no steps has nothing to
execute and keeps the fresh `{}` state. -/
def startInstance {α : Type} (id : String) (d : DialogDefinition α) (args : α) :
    DialogInstance × List (Event α) :=
  match d with
  | .waterfall steps =>
    if 0 < steps.length then
      ({ dialogId := id, state := { stepIndex := 1 } }, [.stepInvoked id 0 args])
    else
      ({ dialogId := id, state := { stepIndex := 0 } }, [])
  | .prompt => ({ dialogId := id, state := { stepIndex := 0 } }, [.promptRendered id])

/-- Modelled from the spec: `begin(id, args)` "resolves `id` in the registry
(fails with `UnknownDialogId` if absent), pushes a new DialogInstance
`{dialogId: id, state: {}}`, and invokes that definition's start handler
with `args`". -/
def beginOp {α : Type} (reg : Registry α) (stack : List DialogInstance)
    (id : String) (args : α) :
    Except DialogError (List DialogInstance × List (Event α)) :=
  match reg id with
  | none => .error (.UnknownDialogId id)
  | some d =>
    let started := startInstance id d args
    .ok (started.1 :: stack, started.2)

/-- Modelled from the spec: delivery of a popped frame's `result` into the
remaining stack.  An empty remainder "signals turn completion with `result`
to the outer caller".  A waterfall on top "invokes `steps[stepIndex]` with
the supplied result, then increments `stepIndex`; if `stepIndex` reaches the
sequence length, the waterfall itself calls `end()` with its own last return
value" (cascading completion).  A prompt on top suspends awaiting its next
turn; a frame whose id does not resolve has no handler to run (the stack
invariant excludes this at read time). -/
def resumeInto {α : Type} (reg : Registry α) :
    List DialogInstance → α → List DialogInstance × List (Event α)
  | [], r => ([], [.completed r])
  | top :: rest, r =>
    match reg top.dialogId with
    | some (.waterfall steps) =>
      let i := top.state.stepIndex
      if h : i < steps.length then
        let ret := (steps.get ⟨i, h⟩) r
        if i + 1 = steps.length then
          let cascaded := resumeInto reg rest ret
          (cascaded.1, .stepInvoked top.dialogId i r :: cascaded.2)
        else
          ({ top with state := { stepIndex := i + 1 } } :: rest, [.stepInvoked top.dialogId i r])
      else
        let cascaded := resumeInto reg rest r
        (cascaded.1, cascaded.2)
    | some .prompt => (top :: rest, [])
    | none => (top :: rest, [])

/-- Modelled from the spec: `end(result)` "pops the active frame" (fails
with `StackUnderflow` on an empty stack) and delivers `result` into the
remaining stack. -/
def endOp {α : Type} (reg : Registry α) (stack : List DialogInstance) (r : α) :
    Except DialogError (List DialogInstance × List (Event α)) :=
  match stack with
  | [] => .error .StackUnderflow
  | _ :: rest => .ok (resumeInto reg rest r)

/-- Modelled from the spec: `replace(id, args)` "pops the active frame and
immediately pushes and starts a new frame for `id`, without invoking the
parent frame beneath it". -/
def replaceOp {α : Type} (reg : Registry α) (stack : List DialogInstance)
    (id : String) (args : α) :
    Except DialogError (List DialogInstance × List (Event α)) :=
  match stack with
  | [] => .error .StackUnderflow
  | _ :: rest => beginOp reg rest id args

/-- Modelled from the spec: `endAll()` "pops every frame, unconditionally
returning the stack to empty; no frame's continuation handlers run in
between" — one pop per frame, no handler invocations. -/
def endAllOp {α : Type} : List DialogInstance → List DialogInstance × List (Event α)
  | [] => ([], [])
  | _ :: rest => endAllOp rest

/-- The stack well-formedness used for the step-index bound: every frame
that resolves to a waterfall carries a persisted step index at most the
step-sequence length. -/
def WfStack {α : Type} (reg : Registry α) (stack : List DialogInstance) : Prop :=
  ∀ f ∈ stack, ∀ steps, reg f.dialogId = some (.waterfall steps) →
    f.state.stepIndex ≤ steps.length

/-! ## The prompt sub-protocol (spec §4.2)

The driver of the render/recognize/validate/retry cycle (the `Prompt` base
of botbuilder-dialogs) is likewise absent from the available sources, so it
is modelled from the specification. -/

/-- Modelled from the spec: a prompt definition "carries a render function,
a recognize function, an optional validator, and a retry message"
(`PromptOptions`: prompt content to render, optional retry content).  The
recognize function yields the typed value or absent; the validator, when
configured, "is given the raw result and may itself override, accept, or
reject". -/
structure PromptDefn (α : Type) where
  content : String
  retryContent : Option String
  recognizeFn : String → Option α
  validator : Option (Option α → Option α)

/-- Modelled from the spec: the outcome of the Recognize phase for one
inbound utterance — the recognize function's result, passed through the
validator when one is configured.  `some` is acceptance, `none` rejection
(no match, or validator returns absent). -/
def promptOutcome {α : Type} (p : PromptDefn α) (utterance : String) : Option α :=
  match p.validator with
  | some v => v (p.recognizeFn utterance)
  | none => p.recognizeFn utterance

/-- What one prompt turn emits: a (re-)render of some content, or the
`end(value)` that pops the frame. -/
inductive PromptEvent (α : Type) where
  | rendered (content : String)
  | ended (value : α)
deriving Repr, DecidableEq

/-- Modelled from the spec: one `continue()` turn of the Recognize phase.
On acceptance the prompt "calls `end(value)`, popping the frame"; on
rejection it "re-renders the retry content (or original content if no retry
content configured) and leaves the frame on the stack unchanged". -/
def promptTurn {α : Type} (p : PromptDefn α) (frame : DialogInstance) (utterance : String) :
    Option DialogInstance × List (PromptEvent α) :=
  match promptOutcome p utterance with
  | some v => (none, [.ended v])
  | none => (some frame, [.rendered (p.retryContent.getD p.content)])

/-- Modelled from the spec: a run of consecutive turns against one prompt
frame; once the frame is popped no later turn reaches it. -/
def promptRun {α : Type} (p : PromptDefn α) (frame : DialogInstance) :
    List String → Option DialogInstance × List (PromptEvent α)
  | [] => (some frame, [])
  | u :: rest =>
    match promptTurn p frame u with
    | (none, evs) => (none, evs)
    | (some f, evs) =>
      let later := promptRun p f rest
      (later.1, evs ++ later.2)

/-! ## The state-persistence binding (spec §6, §7)

The `UserState` implementation (botbuilder-core-extensions) is represented
in the sources only by its declaration file and its tests; the binding is
modelled from the specification and those tests. -/

/-- The identity fields of an inbound turn read by storage key derivation:
channel identity, conversation identity and sender identity, any of which a
malformed turn may lack. -/
structure TurnIdentity where
  channelId : Option String
  conversationId : Option String
  fromId : Option String
deriving Repr, DecidableEq

/-- Modelled from the spec: user-scoped storage key derivation, "a pure
function of turn identity producing a stable, collision-free string,
distinguishing at minimum channel identity … and additionally user identity
for user-scoped state"; it yields nothing when the turn lacks a required
identity field (cf. the UserState tests: a turn missing `channelId` or
`from` is rejected). -/
def userStorageKey (t : TurnIdentity) : Option String :=
  match t.channelId, t.fromId with
  | some c, some u => some ("user/" ++ c ++ "/" ++ u)
  | _, _ => none

/-- Modelled from the spec: `MissingConversationContext` — "inbound turn
lacks identity fields needed to derive a storage key". -/
inductive StateError where
  | MissingConversationContext
deriving Repr, DecidableEq

/-- The observable effects of one turn through the persistence binding:
which keys were read and written, and whether the downstream turn logic
ran. -/
structure TurnLog where
  reads : List String
  writes : List String
  logicInvoked : Bool
deriving Repr, DecidableEq

/-- Modelled from the spec: the per-turn state binding — derive the key,
load state under it, run the downstream logic, flush state back; when the
key cannot be derived the turn fails with `MissingConversationContext`,
"fatal to the turn; no partial state is read or written" and the downstream
logic is never invoked. -/
def processTurn (t : TurnIdentity) : Option StateError × TurnLog :=
  match userStorageKey t with
  | none => (some .MissingConversationContext,
             { reads := [], writes := [], logicInvoked := false })
  | some k => (none, { reads := [k], writes := [k], logicInvoked := true })

/-! ## Theorems -/

/-- Helper: `runNext` from index `i` is the structural chain over the
handlers remaining from `i`. -/
theorem runNext_eq_chainRun {σ : Type} (handlers : List (Middleware σ)) (next : σ → σ) :
    ∀ i s, runNext handlers next i s = chainRun (handlers.drop i) next s := by
  intro i s
  generalize hn : handlers.length - i = n
  induction n generalizing i s with
  | zero =>
    have hle : handlers.length ≤ i := Nat.le_of_sub_eq_zero hn
    rw [runNext, dif_neg (by omega), List.drop_eq_nil_of_le hle]
    rfl
  | succ n ih =>
    have hi : i < handlers.length := by omega
    rw [runNext, dif_pos hi, List.drop_eq_getElem_cons hi]
    simp only [chainRun]
    have hg : handlers.get ⟨i, hi⟩ = handlers[i] := rfl
    rw [hg]
    exact congrArg (handlers[i] s) (funext fun s1 => ih (i + 1) s1 (by omega))

/-- Helper: the instrumented chain appends each handler's tag in order,
then the `none` of the chain-final `next`. -/
theorem chainRun_tagged (tags : List ℕ) (s : List (Option ℕ)) :
    chainRun (tags.map taggedHandler) taggedNext s = s ++ tags.map some ++ [none] := by
  induction tags generalizing s with
  | nil => simp [chainRun, taggedNext]
  | cons t rest ih =>
    simp only [List.map_cons, chainRun, taggedHandler, ih, taggedNext]
    simp

/-- Helper: `use` over plugins that all convert appends their conversions in
order. -/
theorem use_all_valid {σ : Type} (plugins : List (Plugin σ)) :
    ∀ registered, (∀ p ∈ plugins, pluginToHandler p ≠ none) →
      MiddlewareSet.use plugins registered
        = (registered ++ plugins.filterMap pluginToHandler, none) := by
  induction plugins with
  | nil => intro registered _; simp [MiddlewareSet.use]
  | cons p rest ih =>
    intro registered hval
    obtain ⟨m, hm⟩ := Option.ne_none_iff_exists'.mp (hval p (List.mem_cons_self p rest))
    rw [MiddlewareSet.use, hm]
    show MiddlewareSet.use rest (registered ++ [m]) = _
    rw [ih (registered ++ [m]) (fun q hq => hval q (List.mem_cons_of_mem p hq))]
    simp [List.filterMap_cons, hm]

/-- C10: `run` invokes each registered handler exactly once, in
registration order, then the chain-final `next` exactly once (every handler
calling its continuation exactly once); `use` throws on a plugin that is
neither a function nor an object exposing `onProcessRequest`, that plugin
contributing nothing to the registered list. -/
theorem middlewareSet_run_order_use_validation {σ : Type} :
    (∀ (tags : List ℕ) (s : List (Option ℕ)),
       MiddlewareSet.run (tags.map taggedHandler) taggedNext s = s ++ tags.map some ++ [none])
  ∧ (∀ (plugins : List (Plugin σ)) (registered : List (Middleware σ)),
       (∀ p ∈ plugins, pluginToHandler p ≠ none) →
       MiddlewareSet.use plugins registered
         = (registered ++ plugins.filterMap pluginToHandler, none))
  ∧ (∀ (pre rest : List (Plugin σ)) (registered : List (Middleware σ)),
       (∀ p ∈ pre, pluginToHandler p ≠ none) →
       MiddlewareSet.use (pre ++ Plugin.invalid :: rest) registered
         = (registered ++ pre.filterMap pluginToHandler,
            some "MiddlewareSet.use(): invalid plugin type being added.")) := by
  refine ⟨fun tags s => ?_, fun plugins registered h => use_all_valid plugins registered h, ?_⟩
  · rw [MiddlewareSet.run, runNext_eq_chainRun, List.drop_zero, chainRun_tagged]
  · intro pre
    induction pre with
    | nil =>
      intro rest registered _
      simp [MiddlewareSet.use, pluginToHandler]
    | cons p ps ih =>
      intro rest registered hval
      obtain ⟨m, hm⟩ := Option.ne_none_iff_exists'.mp (hval p (List.mem_cons_self p ps))
      rw [List.cons_append, MiddlewareSet.use, hm]
      show MiddlewareSet.use (ps ++ Plugin.invalid :: rest) (registered ++ [m]) = _
      rw [ih rest (registered ++ [m]) (fun q hq => hval q (List.mem_cons_of_mem p hq))]
      simp [List.filterMap_cons, hm]

/-- Witness for C10 at concrete inputs: three tagged handlers run in order
followed by `next`, and a `use` call hitting an invalid plugin after one
valid function keeps only that function and throws. -/
theorem middlewareSet_run_order_use_validation_witness :
    (MiddlewareSet.run ([0, 1, 2].map taggedHandler) taggedNext []
       = [some 0, some 1, some 2, none])
  ∧ (MiddlewareSet.use
       [Plugin.func (taggedHandler 9), Plugin.invalid] ([] : List (Middleware (List (Option ℕ))))
       = ([taggedHandler 9], some "MiddlewareSet.use(): invalid plugin type being added.")) := by
  constructor
  · have h := (middlewareSet_run_order_use_validation (σ := List (Option ℕ))).1 [0, 1, 2] []
    simpa using h
  · have h := (middlewareSet_run_order_use_validation (σ := List (Option ℕ))).2.2
      [Plugin.func (taggedHandler 9)] [] []
      (by intro p hp; simp at hp; subst hp; simp [pluginToHandler])
    simpa [pluginToHandler] using h

/-- C1: `endAll()` on a stack of any depth K ≥ 0 leaves the stack at depth
0, and invokes no continuation handler of any popped frame (the event trace
is empty). -/
theorem endAll_clears_stack_without_invocations {α : Type} (stack : List DialogInstance) :
    (endAllOp (α := α) stack).1.length = 0 ∧ (endAllOp (α := α) stack).2 = [] := by
  induction stack with
  | nil => exact ⟨rfl, rfl⟩
  | cons f rest ih => simpa [endAllOp] using ih

/-- C6: a turn lacking channel identity or sender identity fails with
`MissingConversationContext`; the downstream turn logic is never invoked
and no state is read or written. -/
theorem missing_identity_fails_turn (t : TurnIdentity)
    (h : t.channelId = none ∨ t.fromId = none) :
    processTurn t
      = (some StateError.MissingConversationContext,
         { reads := [], writes := [], logicInvoked := false }) := by
  rcases h with h | h
  · simp [processTurn, userStorageKey, h]
  · cases hc : t.channelId <;> simp [processTurn, userStorageKey, h, hc]

/-- Witness for C6: a turn with sender identity but no channel identity
fails exactly as stated. -/
theorem missing_identity_fails_turn_witness :
    processTurn { channelId := none, conversationId := some "conv", fromId := some "user" }
      = (some StateError.MissingConversationContext,
         { reads := [], writes := [], logicInvoked := false }) :=
  missing_identity_fails_turn _ (Or.inl rfl)

/-- C7: the choice prompt's `recognize` takes the first candidate of the
ranked list returned by the external recognizer (`results[0].resolution`)
as its value when the list is non-empty, yields absent when the list is
empty, and when a validator is configured the result is whatever the
validator makes of that value. -/
theorem choice_recognize_first_candidate {χ ρ : Type}
    (recognizeChoices : String → List χ → FindChoicesOptions → List (ChoiceModelResult ρ))
    (defaultLocale : Option String) (recognizerOptions : FindChoicesOptions)
    (context : Context) (choices : List χ) :
    (recognizeChoices (utteranceOf context) choices
        (choiceOptionsOf recognizerOptions context defaultLocale) = [] →
       choiceRecognize recognizeChoices none defaultLocale recognizerOptions context choices
         = none)
  ∧ (∀ r rs, recognizeChoices (utteranceOf context) choices
        (choiceOptionsOf recognizerOptions context defaultLocale) = r :: rs →
       choiceRecognize recognizeChoices none defaultLocale recognizerOptions context choices
         = some r.resolution)
  ∧ (∀ v, choiceRecognize recognizeChoices (some v) defaultLocale recognizerOptions context choices
       = v context
           (choiceRecognize recognizeChoices none defaultLocale recognizerOptions context choices)
           choices) := by
  refine ⟨fun h => ?_, fun r rs h => ?_, fun v => rfl⟩
  · simp [choiceRecognize, h]
  · simp [choiceRecognize, h]

/-- Witness for C7: with a recognizer returning a two-candidate ranked list
and no validator, the first candidate's resolution is the value. -/
theorem choice_recognize_first_candidate_witness :
    choiceRecognize (χ := String) (ρ := ℕ)
      (fun _ _ _ => [{ resolution := 42 }, { resolution := 7 }]) none none { locale := none }
      { request := some { text := some "two", locale := none } } ["a", "b"]
      = some 42 :=
  (choice_recognize_first_candidate _ _ _ _ _).2.1 { resolution := 42 } [{ resolution := 7 }] rfl

/-- C8: the confirm prompt's `recognize` maps the utterance through the
locale-specific yes/no grammar to a boolean; an empty result list, or a
first result with no resolution, yields no match (`none`) rather than an
error, and a configured validator receives that value. -/
theorem confirm_recognize_boolean_grammar
    (recognizeBoolean : String → String → List BoolModelResult)
    (defaultLocale : Option String) (context : Context) :
    (recognizeBoolean (utteranceOf context) (confirmLocaleOf context defaultLocale) = [] →
       confirmRecognize recognizeBoolean none defaultLocale context = none)
  ∧ (∀ rs, recognizeBoolean (utteranceOf context) (confirmLocaleOf context defaultLocale)
        = { resolution := none } :: rs →
       confirmRecognize recognizeBoolean none defaultLocale context = none)
  ∧ (∀ b rs, recognizeBoolean (utteranceOf context) (confirmLocaleOf context defaultLocale)
        = { resolution := some { value := b } } :: rs →
       confirmRecognize recognizeBoolean none defaultLocale context = some b)
  ∧ (∀ v, confirmRecognize recognizeBoolean (some v) defaultLocale context
       = v context (confirmRecognize recognizeBoolean none defaultLocale context)) := by
  refine ⟨fun h => ?_, fun rs h => ?_, fun b rs h => ?_, fun v => rfl⟩
  · simp [confirmRecognize, h]
  · simp [confirmRecognize, h]
  · simp [confirmRecognize, h]

/-- Witness for C8: a grammar recognizing the utterance as an affirmative
yields `true`; one returning no results yields no match. -/
theorem confirm_recognize_boolean_grammar_witness :
    confirmRecognize (fun _ _ => [{ resolution := some { value := true } }]) none none
      { request := some { text := some "yes", locale := none } } = some true
  ∧ confirmRecognize (fun _ _ => []) none none
      { request := some { text := some "nope", locale := none } } = none :=
  ⟨(confirm_recognize_boolean_grammar _ _ _).2.2.1 true [] rfl,
   (confirm_recognize_boolean_grammar _ _ _).1 rfl⟩

/-- C9: the prompt `recognize` functions are total at the public interface:
a missing request object or missing request text is the empty utterance;
the locale falls back from `request.locale` to the recognizer-options
locale (choice only), then to the constructor's `defaultLocale`, then to
`"en-us"`. -/
theorem prompts_total_with_defaults :
    (∀ ctx : Context, (ctx.request = none ∨ ∃ r, ctx.request = some r ∧ jsFalsy r.text) →
       utteranceOf ctx = "")
  ∧ (∀ (χ ρ : Type)
       (rec : String → List χ → FindChoicesOptions → List (ChoiceModelResult ρ))
       (dl : Option String) (ro : FindChoicesOptions) (choices : List χ),
       choiceRecognize rec none dl ro { request := none } choices
         = choiceRecognize rec none dl ro { request := some { text := none, locale := none } }
             choices)
  ∧ (∀ (rb : String → String → List BoolModelResult) (dl : Option String),
       confirmRecognize rb none dl { request := none }
         = confirmRecognize rb none dl { request := some { text := none, locale := none } })
  ∧ (∀ ctx rol dl s, (requestOf ctx).locale = some s → s ≠ "" →
       choiceLocaleOf ctx rol dl = s ∧ confirmLocaleOf ctx dl = s)
  ∧ (∀ ctx rol dl s, jsFalsy (requestOf ctx).locale → rol = some s → s ≠ "" →
       choiceLocaleOf ctx rol dl = s)
  ∧ (∀ ctx rol dl s, jsFalsy (requestOf ctx).locale → jsFalsy rol → dl = some s → s ≠ "" →
       choiceLocaleOf ctx rol dl = s ∧ confirmLocaleOf ctx dl = s)
  ∧ (∀ ctx rol dl, jsFalsy (requestOf ctx).locale → jsFalsy rol → jsFalsy dl →
       choiceLocaleOf ctx rol dl = "en-us" ∧ confirmLocaleOf ctx dl = "en-us")
  ∧ (∀ ctx dl, confirmLocaleOf ctx dl = choiceLocaleOf ctx none dl) := by
  refine ⟨?_, fun χ ρ rec dl ro choices => by rfl, fun rb dl => by rfl, ?_, ?_, ?_, ?_, ?_⟩
  · intro ctx h
    rcases h with h | ⟨r, hr, ht⟩
    · simp [utteranceOf, requestOf, h, jsOr]
    · rcases ht with ht | ht <;> simp [utteranceOf, requestOf, hr, ht, jsOr]
  · intro ctx rol dl s hs hne
    constructor <;> simp [choiceLocaleOf, confirmLocaleOf, hs, jsOr, hne]
  · intro ctx rol dl s hfal hrol hne
    rcases hfal with h | h <;> simp [choiceLocaleOf, h, hrol, jsOr, hne]
  · intro ctx rol dl s hfal hrolf hdl hne
    rcases hfal with h | h <;> rcases hrolf with h2 | h2 <;>
      constructor <;> simp [choiceLocaleOf, confirmLocaleOf, h, h2, hdl, jsOr, hne]
  · intro ctx rol dl hfal hrolf hdlf
    rcases hfal with h | h <;> rcases hrolf with h2 | h2 <;> rcases hdlf with h3 | h3 <;>
      constructor <;> simp [choiceLocaleOf, confirmLocaleOf, h, h2, h3, jsOr]
  · intro ctx dl
    simp [choiceLocaleOf, confirmLocaleOf, jsOr]

/-- Witness for C9: a missing request gives the empty utterance; the
locale chain picks the request locale over all fallbacks, the recognizer
options over the default, and `"en-us"` when everything is absent. -/
theorem prompts_total_with_defaults_witness :
    utteranceOf { request := none } = ""
  ∧ choiceLocaleOf { request := some { text := none, locale := some "fr-fr" } }
      (some "de-de") (some "es-es") = "fr-fr"
  ∧ choiceLocaleOf { request := none } (some "de-de") none = "de-de"
  ∧ choiceLocaleOf { request := none } none none = "en-us" := by
  refine ⟨prompts_total_with_defaults.1 { request := none } (Or.inl rfl), ?_, ?_, ?_⟩
  · exact (prompts_total_with_defaults.2.2.2.1
      { request := some { text := none, locale := some "fr-fr" } } (some "de-de")
      (some "es-es") "fr-fr" rfl (by decide)).1
  · exact prompts_total_with_defaults.2.2.2.2.1
      { request := none } (some "de-de") none "de-de" (Or.inl rfl) rfl (by decide)
  · exact (prompts_total_with_defaults.2.2.2.2.2.2.1
      { request := none } none none (Or.inl rfl) (Or.inl rfl) (Or.inl rfl)).1

/-- C2: for a non-empty stack and a registered id, `replace(id)` leaves the
stack depth exactly as before, the frames beneath the replaced frame are
untouched, and every handler invocation of the call belongs to the newly
started dialog (the parent is not invoked and receives no value). -/
theorem replace_preserves_depth_skips_parent {α : Type} (reg : Registry α)
    (top : DialogInstance) (rest : List DialogInstance) (id : String) (args : α)
    (d : DialogDefinition α) (hreg : reg id = some d) :
    replaceOp reg (top :: rest) id args
      = .ok ((startInstance id d args).1 :: rest, (startInstance id d args).2)
    ∧ ((startInstance id d args).1 :: rest).length = (top :: rest).length
    ∧ ∀ e ∈ (startInstance (α := α) id d args).2,
        e = Event.promptRendered id ∨ ∃ a, e = Event.stepInvoked id 0 a := by
  refine ⟨by simp [replaceOp, beginOp, hreg], by simp, ?_⟩
  intro e he
  cases d with
  | prompt =>
    simp [startInstance] at he
    exact Or.inl he
  | waterfall steps =>
    by_cases h0 : 0 < steps.length
    · simp [startInstance, h0] at he
      exact Or.inr ⟨args, he⟩
    · simp [startInstance, h0] at he

/-- Witness for C2: replacing the only frame of a depth-1 stack by a
one-step waterfall keeps depth 1 and invokes only the new dialog's step 0
with the supplied arguments. -/
theorem replace_preserves_depth_skips_parent_witness :
    replaceOp (fun _ => some (DialogDefinition.waterfall [fun x => x + 1]))
        [{ dialogId := "a", state := { stepIndex := 0 } }] "b" (7 : ℕ)
      = .ok ([{ dialogId := "b", state := { stepIndex := 1 } }],
             [Event.stepInvoked "b" 0 7]) := by
  have h := replace_preserves_depth_skips_parent
      (fun _ => some (DialogDefinition.waterfall [fun x => x + 1]))
      { dialogId := "a", state := { stepIndex := 0 } } [] "b" (7 : ℕ)
      (DialogDefinition.waterfall [fun x => x + 1]) rfl
  rw [h.1]
  simp [startInstance]

/-- C3: an `end()` arriving into a waterfall frame with persisted index
`i < n` invokes `steps[i]` with the supplied result and persists index
`i + 1` when `i + 1 < n`; when `i + 1 = n` the waterfall cascades,
delivering its last step's return value one level up; and the persisted
index of every waterfall frame never exceeds its sequence length. -/
theorem waterfall_steps_advance_and_cascade {α : Type} (reg : Registry α) :
    (∀ (id : String) (steps : List (α → α)) (i : ℕ) (rest : List DialogInstance) (r : α),
       reg id = some (.waterfall steps) → ∀ hi : i < steps.length,
       (resumeInto reg ({ dialogId := id, state := { stepIndex := i } } :: rest) r).2.head?
           = some (Event.stepInvoked id i r)
       ∧ (i + 1 < steps.length →
            resumeInto reg ({ dialogId := id, state := { stepIndex := i } } :: rest) r
              = ({ dialogId := id, state := { stepIndex := i + 1 } } :: rest,
                 [Event.stepInvoked id i r]))
       ∧ (i + 1 = steps.length →
            resumeInto reg ({ dialogId := id, state := { stepIndex := i } } :: rest) r
              = ((resumeInto reg rest ((steps.get ⟨i, hi⟩) r)).1,
                 Event.stepInvoked id i r
                   :: (resumeInto reg rest ((steps.get ⟨i, hi⟩) r)).2)))
  ∧ (∀ (stack : List DialogInstance) (r : α),
       WfStack reg stack → WfStack reg (resumeInto reg stack r).1) := by
  constructor
  · intro id steps i rest r hreg hi
    by_cases hlast : i + 1 = steps.length
    · have hcasc :
          resumeInto reg ({ dialogId := id, state := { stepIndex := i } } :: rest) r
            = ((resumeInto reg rest ((steps.get ⟨i, hi⟩) r)).1,
               Event.stepInvoked id i r :: (resumeInto reg rest ((steps.get ⟨i, hi⟩) r)).2) := by
        simp [resumeInto, hreg, hi, hlast]
      exact ⟨by rw [hcasc]; rfl, fun h2 => absurd hlast (by omega), fun _ => hcasc⟩
    · have hpersist :
          resumeInto reg ({ dialogId := id, state := { stepIndex := i } } :: rest) r
            = ({ dialogId := id, state := { stepIndex := i + 1 } } :: rest,
               [Event.stepInvoked id i r]) := by
        simp [resumeInto, hreg, hi, hlast]
      exact ⟨by rw [hpersist]; rfl, fun _ => hpersist, fun h2 => absurd h2 hlast⟩
  · intro stack
    induction stack with
    | nil =>
      intro r _
      intro f hf steps hres
      simp [resumeInto] at hf
    | cons top rest ih =>
      intro r hwf
      have hrest : WfStack reg rest :=
        fun f hf steps hres => hwf f (List.mem_cons_of_mem _ hf) steps hres
      rcases hdef : reg top.dialogId with _ | d
      · have hkeep : (resumeInto reg (top :: rest) r).1 = top :: rest := by
          simp [resumeInto, hdef]
        rw [hkeep]; exact hwf
      · cases d with
        | prompt =>
          have hkeep : (resumeInto reg (top :: rest) r).1 = top :: rest := by
            simp [resumeInto, hdef]
          rw [hkeep]; exact hwf
        | waterfall steps =>
          by_cases hi : top.state.stepIndex < steps.length
          · by_cases hlast : top.state.stepIndex + 1 = steps.length
            · have hcasc : (resumeInto reg (top :: rest) r).1
                  = (resumeInto reg rest ((steps.get ⟨top.state.stepIndex, hi⟩) r)).1 := by
                simp [resumeInto, hdef, hi, hlast]
              rw [hcasc]; exact ih _ hrest
            · have hpersist : (resumeInto reg (top :: rest) r).1
                  = { top with state := { stepIndex := top.state.stepIndex + 1 } } :: rest := by
                simp [resumeInto, hdef, hi, hlast]
              rw [hpersist]
              intro f hf steps2 hres2
              rcases List.mem_cons.mp hf with hf | hf
              · subst hf
                have hdid :
                    ({ top with state := { stepIndex := top.state.stepIndex + 1 } }
                        : DialogInstance).dialogId = top.dialogId := rfl
                rw [hdid, hdef] at hres2
                have hsteps : steps = steps2 := by
                  injection hres2 with h3
                  injection h3
                show top.state.stepIndex + 1 ≤ steps2.length
                rw [← hsteps]
                omega
              · exact hwf f (List.mem_cons_of_mem _ hf) steps2 hres2
          · have hdrop : (resumeInto reg (top :: rest) r).1 = (resumeInto reg rest r).1 := by
              simp [resumeInto, hdef, hi]
            rw [hdrop]; exact ih _ hrest

/-- Witness for C3: ending with result 5 into a two-step waterfall frame at
index 0 invokes step 0 with 5 and persists index 1; ending into it again
at index 1 runs the final step and cascades, completing the conversation
with the step's return value. -/
theorem waterfall_steps_advance_and_cascade_witness :
    resumeInto (fun _ => some (DialogDefinition.waterfall [fun x => x + 1, fun x => x * 2]))
        [{ dialogId := "w", state := { stepIndex := 0 } }] (5 : ℕ)
      = ([{ dialogId := "w", state := { stepIndex := 1 } }], [Event.stepInvoked "w" 0 5])
  ∧ resumeInto (fun _ => some (DialogDefinition.waterfall [fun x => x + 1, fun x => x * 2]))
        [{ dialogId := "w", state := { stepIndex := 1 } }] (6 : ℕ)
      = ([], [Event.stepInvoked "w" 1 6, Event.completed 12]) := by
  constructor
  · have h := ((waterfall_steps_advance_and_cascade
        (fun _ => some (DialogDefinition.waterfall [fun x => x + 1, fun x => x * 2]))).1
        "w" [fun x => x + 1, fun x => x * 2] 0 [] 5 rfl (by decide)).2.1 (by decide)
    exact h
  · have h := ((waterfall_steps_advance_and_cascade
        (fun _ => some (DialogDefinition.waterfall [fun x => x + 1, fun x => x * 2]))).1
        "w" [fun x => x + 1, fun x => x * 2] 1 [] 6 rfl (by decide)).2.2 (by decide)
    rw [h]
    simp [resumeInto]

/-- C5: `begin(id, args)` (and `replace(id, args)`) with an id absent from
the registry fails with `UnknownDialogId`, surfaced immediately as the
operation's result; with a registered definition, `begin` pushes a single
new DialogInstance for `id` onto the stack and invokes that definition's
start handler with `args` (step 0 for a waterfall, render for a prompt,
the fresh frame state being the empty bag before the start handler runs). -/
theorem begin_validates_and_pushes {α : Type} (reg : Registry α)
    (stack : List DialogInstance) (top : DialogInstance) (rest : List DialogInstance)
    (id : String) (args : α) :
    (reg id = none →
       beginOp reg stack id args = .error (DialogError.UnknownDialogId id)
       ∧ replaceOp reg (top :: rest) id args = .error (DialogError.UnknownDialogId id))
  ∧ (∀ d, reg id = some d →
       beginOp reg stack id args
         = .ok ((startInstance id d args).1 :: stack, (startInstance id d args).2)
       ∧ (startInstance (α := α) id d args).1.dialogId = id
       ∧ (∀ steps, d = DialogDefinition.waterfall steps → 0 < steps.length →
            (startInstance id d args).1.state = { stepIndex := 1 }
            ∧ (startInstance id d args).2 = [Event.stepInvoked id 0 args])
       ∧ (d = DialogDefinition.prompt →
            (startInstance id d args).1.state = { stepIndex := 0 }
            ∧ (startInstance id d args).2 = [Event.promptRendered id])) := by
  constructor
  · intro h
    exact ⟨by simp [beginOp, h], by simp [replaceOp, beginOp, h]⟩
  · intro d hd
    refine ⟨by simp [beginOp, hd], ?_, ?_, ?_⟩
    · cases d with
      | waterfall steps => by_cases h0 : 0 < steps.length <;> simp [startInstance, h0]
      | prompt => simp [startInstance]
    · intro steps hsteps h0
      subst hsteps
      simp [startInstance, h0]
    · intro hp
      subst hp
      simp [startInstance]

/-- Witness for C5: beginning an unregistered id fails with
`UnknownDialogId`, and beginning a registered prompt pushes the fresh frame
and renders. -/
theorem begin_validates_and_pushes_witness :
    beginOp (α := ℕ) (fun _ => none) [] "missing" 0
      = .error (DialogError.UnknownDialogId "missing")
  ∧ beginOp (fun _ => some (DialogDefinition.prompt (α := ℕ))) [] "p" 0
      = .ok ([{ dialogId := "p", state := { stepIndex := 0 } }], [Event.promptRendered "p"]) := by
  constructor
  · exact ((begin_validates_and_pushes (α := ℕ) (fun _ => none) []
      { dialogId := "x", state := { stepIndex := 0 } } [] "missing" 0).1 rfl).1
  · have h := ((begin_validates_and_pushes (fun _ => some (DialogDefinition.prompt (α := ℕ)))
      [] { dialogId := "x", state := { stepIndex := 0 } } [] "p" 0).2
      DialogDefinition.prompt rfl).1
    rw [h]
    simp [startInstance]

/-- C4: a prompt frame survives, unchanged, any number of consecutive
rejected recognitions, re-rendering the retry content (or the original
content when no retry content is configured) on each; it is popped exactly
once, by the single `end(value)` of the first accepted recognition, and no
built-in retry bound exists (the rejected run may have any length). -/
theorem prompt_retries_until_accepted {α : Type} (p : PromptDefn α) (frame : DialogInstance)
    (rejected : List String) (hrej : ∀ u ∈ rejected, promptOutcome p u = none) :
    promptRun p frame rejected
      = (some frame,
         rejected.map fun _ => PromptEvent.rendered (p.retryContent.getD p.content))
    ∧ (∀ v w, promptOutcome p v = some w →
        promptRun p frame (rejected ++ [v])
          = (none,
             (rejected.map fun _ => PromptEvent.rendered (p.retryContent.getD p.content))
               ++ [PromptEvent.ended w])) := by
  have main : ∀ us : List String, (∀ u ∈ us, promptOutcome p u = none) →
      promptRun p frame us
        = (some frame, us.map fun _ => PromptEvent.rendered (p.retryContent.getD p.content))
      ∧ (∀ v w, promptOutcome p v = some w →
          promptRun p frame (us ++ [v])
            = (none,
               (us.map fun _ => PromptEvent.rendered (p.retryContent.getD p.content))
                 ++ [PromptEvent.ended w])) := by
    intro us
    induction us with
    | nil =>
      intro _
      refine ⟨rfl, ?_⟩
      intro v w hv
      simp [promptRun, promptTurn, hv]
    | cons u us ih =>
      intro hall
      have hu : promptOutcome p u = none := hall u (List.mem_cons_self u us)
      obtain ⟨ih1, ih2⟩ := ih (fun x hx => hall x (List.mem_cons_of_mem u hx))
      constructor
      · simp [promptRun, promptTurn, hu, ih1]
      · intro v w hv
        simp [promptRun, promptTurn, hu, ih2 v w hv]
  exact main rejected hrej

/-- Witness for C4: two rejected utterances re-render the retry content
twice and leave the frame; the accepting third utterance pops it with its
value. -/
theorem prompt_retries_until_accepted_witness :
    promptRun
      { content := "pick", retryContent := some "again",
        recognizeFn := fun u => if u = "yes" then some (1 : ℕ) else none, validator := none }
      { dialogId := "p", state := { stepIndex := 0 } } ["a", "b", "yes"]
      = (none, [PromptEvent.rendered "again", PromptEvent.rendered "again",
                PromptEvent.ended 1]) := by
  have h := (prompt_retries_until_accepted
      { content := "pick", retryContent := some "again",
        recognizeFn := fun u => if u = "yes" then some (1 : ℕ) else none, validator := none }
      { dialogId := "p", state := { stepIndex := 0 } } ["a", "b"]
      (by decide)).2 "yes" 1 (by decide)
  simpa using h

end BotBuilder
